import Mathlib

/-!
Shallow embedding of the orapub event-publishing engine (orapub.go) and proofs
about it.

The Go source is embedded as follows:

* pure data (event specs, events, errors) become Lean structures;
* the package-level registry and the `OraPub` struct become explicit values
  threaded through the functions that read or write them;
* the database is an external collaborator: each pass of the engine consumes a
  `PassEnv` describing what the database and the registered handlers do during
  that pass (whether `Begin` fails, what the poll query scans, what each
  event-detail fetch returns, whether a reconnect attempt would succeed);
* every database-touching statement the engine executes is recorded in an
  explicit trace (`DbOp`), so that claims about rollbacks, deletes, commits,
  sleeps and reconnect attempts become statements about the trace.

Machine integers: Go `int` versions are modelled as `Int`; the consecutive
error counter is a `Nat` (it is only ever incremented from 0 or reset).
-/

namespace Orapub

/-- Threshold from orapub.go: `const consecutiveErrorsThreshold = 100`. -/
def consecutiveErrorsThreshold : Nat := 100

/-- EventSpec from orapub.go: one row of the publish (queue) table,
`{AggregateId string; Version int}`. -/
structure EventSpec where
  aggregateId : String
  version : Int
deriving DecidableEq, Repr

/-- goes.Event as constructed by retrieveEventDetail:
`{Source, Version, TypeCode, Payload}`. The payload bytes are modelled as a
list of naturals. -/
structure GEvent where
  source : String
  version : Int
  typeCode : String
  payload : List Nat
deriving DecidableEq, Repr

/-- A database-level error value. `isConn` models the classification
`oraconn.IsConnectionError(err)`; `code` distinguishes distinct errors. -/
structure DbError where
  isConn : Bool
  code : Nat
deriving DecidableEq, Repr

/-- Errors stored in the `LoopExitError` slot of an `OraPub` value: the three
package-level sentinel errors of orapub.go plus database errors. -/
inductive PubErr where
  | noProcessorsRegistered
  | notConnected
  | nilEventProcessorField
  | db (e : DbError)
deriving DecidableEq, Repr

/-- The `*sql.DB` handle. No operation on the handle itself is modelled, only
its presence or absence (Go nil-ness), hence a unit type. -/
def SqlDB : Type := Unit

/-- The `OraPub` struct: a possibly-nil `*oraconn.OracleDB` (collapsed to its
inner `*sql.DB` handle) and the `LoopExitError` field. -/
structure OraPubState where
  db : Option SqlDB
  LoopExitError : Option PubErr

/-- EventProcessor from orapub.go: the two possibly-nil callback fields
`Initialize func(*sql.DB) error` (here `InitFn`) and
`Processor func(*sql.DB, *goes.Event) error`. Go nil function values become
`none`; a returned non-nil `error` becomes `some msg`. -/
structure EventProcessor where
  InitFn : Option (Option SqlDB → Option String)
  Processor : Option (Option SqlDB → GEvent → Option String)

/-- Map lookup, `eventProcessors[name]`. -/
def lookupProcessor : List (String × EventProcessor) → String → Option EventProcessor
  | [], _ => none
  | (n, p) :: rest, name => if n = name then some p else lookupProcessor rest name

/-- Map assignment, `eventProcessors[name] = eventProcessor`: replaces the
binding for `name` when present, otherwise adds one. -/
def insertProcessor : List (String × EventProcessor) → String → EventProcessor →
    List (String × EventProcessor)
  | [], name, p => [(name, p)]
  | (n, q) :: rest, name, p =>
    if n = name then (name, p) :: rest else (n, q) :: insertProcessor rest name p

/-- RegisterEventProcessor from orapub.go. It returns
`ErrNilEventProcessorField` when `eventProcessor.Processor == nil ||
eventProcessor.Initialize == nil` and otherwise stores the processor under the
given name. The (error, updated registry) pair models the Go (return value,
package state after the call). -/
def RegisterEventProcessor (ps : List (String × EventProcessor)) (name : String)
    (eventProcessor : EventProcessor) : Option PubErr × List (String × EventProcessor) :=
  if eventProcessor.Processor.isNone || eventProcessor.InitFn.isNone then
    (some PubErr.nilEventProcessorField, ps)
  else
    (none, insertProcessor ps name eventProcessor)

/-- extractDB from orapub.go: returns the inner `*sql.DB` when `op.db != nil`,
otherwise the nil handle. -/
def extractDB (op : OraPubState) : Option SqlDB :=
  op.db

/-- isDbHealth from orapub.go: pings the database when a handle is held and
reports whether the ping succeeded; reports false with no handle. The outcome
of the ping round trip is environmental input `pingOk`. -/
def isDbHealth (op : OraPubState) (pingOk : Bool) : Bool :=
  match extractDB op with
  | some _ => pingOk
  | none => false

/-- IsHealth from orapub.go:
`op.LoopExitError == nil && op.isDbHealth()`. -/
def IsHealth (op : OraPubState) (pingOk : Bool) : Bool :=
  op.LoopExitError.isNone && isDbHealth op pingOk

/-- Comparison used by the poll query's `order by version`. -/
def versionLe (a b : EventSpec) : Prop :=
  a.version ≤ b.version

instance : DecidableRel versionLe := fun a b => Int.decLe a.version b.version

instance : IsTotal EventSpec versionLe := ⟨fun a b => Int.le_total a.version b.version⟩

instance : IsTrans EventSpec versionLe := ⟨fun _ _ _ h h2 => Int.le_trans h h2⟩

/-- Semantics of the poll query in pollEvents (orapub.go):
`select aggregate_id, version from t_aepb_publish where rownum < 101 order by
version for update`. Oracle assigns ROWNUM to rows in the order the table is
scanned, BEFORE the ORDER BY is applied, so the query keeps the first 100 rows
of an arbitrary, database-chosen scan order and only then sorts those rows by
version. `scan` is that database-chosen enumeration of the queue table; ties in
`version` may come back in any order, here realised by a stable insertion
sort. -/
def oraclePollQuery (scan : List EventSpec) : List EventSpec :=
  List.insertionSort versionLe (scan.take 100)

/-- A handler as seen by the dispatch loop. Handlers only reach
`ProcessEvents` through `RegisterEventProcessor`, which guarantees a non-nil
`Processor` callback, and the loop always passes the same `op.db.DB` handle, so
a dispatch-side handler is the total function `event ↦ returned error`. -/
abbrev Handler := GEvent → Option String

/-- One database-touching statement (or sleep) executed by the engine,
recorded in execution order. -/
inductive DbOp where
  | beginTx
  | pollQ
  | rollbackTx
  | commitTx
  | fetchQ (es : EventSpec)
  | deleteQ (es : EventSpec)
  | reconnectTry (ok : Bool)
  | sleep5
  | sleep1
deriving DecidableEq, Repr

/-- What the external world does during one pass of ProcessEvents:
whether `op.db.Begin()` fails, whether the poll query fails, the scan order the
database enumerates the queue table in (see `oraclePollQuery`), the outcome of
each `retrieveEventDetail` point lookup, and whether an `op.db.Reconnect(5)`
attempted during this pass would succeed. -/
structure PassEnv where
  beginErr : Option DbError
  pollErr : Option DbError
  pollScan : List EventSpec
  fetchResult : EventSpec → Except DbError GEvent
  reconnectOk : Bool

/-- The rows a successful poll returns for this pass. -/
def pollSpecs (env : PassEnv) : List EventSpec :=
  oraclePollQuery env.pollScan

/-- handleConnectionError from orapub.go: when the error is connection-class,
attempt `op.db.Reconnect(5)` and report whether it succeeded; otherwise report
false without touching the connection. Returns the flag and the trace of the
reconnect attempt. -/
def handleConnectionError (e : DbError) (reconnectOk : Bool) : Bool × List DbOp :=
  if e.isConn then (reconnectOk, [DbOp.reconnectTry reconnectOk]) else (false, [])

/-- Result of one pass of the ProcessEvents loop body: the statements
executed, the consecutive-error counter after the pass, and `some e` exactly
when the pass executed `return` with `op.LoopExitError = e`. -/
structure PassOut where
  trace : List DbOp
  counter : Nat
  exit : Option DbError
deriving DecidableEq, Repr

/-- The `exitpt:` block of ProcessEvents (orapub.go). With a non-nil outer
`loopErr` it increments the consecutive-error counter, sleeps 1 second, rolls
the transaction back when one exists, resets the counter when
`handleConnectionError` reports a successful reconnect, and returns (recording
the error in `LoopExitError`) once the counter exceeds
`consecutiveErrorsThreshold`. With a nil `loopErr` it does nothing. -/
def exitpt (loopErr : Option DbError) (txnLive : Bool) (reconnectOk : Bool)
    (counter : Nat) (trace : List DbOp) : PassOut :=
  match loopErr with
  | none => ⟨trace, counter, none⟩
  | some e =>
    let c1 := counter + 1
    let tr1 := trace ++ [DbOp.sleep1] ++ (if txnLive then [DbOp.rollbackTx] else [])
    let rec1 := handleConnectionError e reconnectOk
    let c2 := if rec1.1 then 0 else c1
    if c2 > consecutiveErrorsThreshold then
      ⟨tr1 ++ rec1.2, c2, some e⟩
    else
      ⟨tr1 ++ rec1.2, c2, none⟩

/-- The body of the inner row loop of ProcessEvents for one `eventContext`:
`retrieveEventDetail` (which itself classifies a query error and may attempt a
reconnect), then, on success, one `Processor` call per registered handler with
a `deleteEvent` for every handler that returns nil. Returns the statements
executed and the value of the INNER `loopErr` of the Go source: the short
variable declaration `e, loopErr := op.retrieveEventDetail(...)` declares a new
`loopErr` scoped to the row loop, shadowing the outer one. -/
def processRow (env : PassEnv) (reg : List (String × Handler)) (es : EventSpec) :
    List DbOp × Option DbError :=
  match env.fetchResult es with
  | Except.error e =>
    (DbOp.fetchQ es :: (handleConnectionError e env.reconnectOk).2, some e)
  | Except.ok ev =>
    (DbOp.fetchQ es ::
      reg.filterMap (fun nh => if (nh.2 ev).isNone then some (DbOp.deleteQ es) else none),
      none)

/-- The inner row loop of ProcessEvents over the polled event specs. The Bool
is true when a fetch failure aborted the loop (Go: `goto exitpt` out of the row
loop). The shadowed inner `loopErr` is dropped at that point, exactly as the Go
scoping rules drop it. -/
def processRows (env : PassEnv) (reg : List (String × Handler)) :
    List EventSpec → List DbOp × Bool
  | [] => ([], false)
  | es :: rest =>
    match processRow env reg es with
    | (tr, some _) => (tr, true)
    | (tr, none) =>
      let r := processRows env reg rest
      (tr ++ r.1, r.2)

/-- One iteration of the `for` loop of ProcessEvents (orapub.go), from
`op.db.Begin()` to the bottom of the `exitpt:` block:

* `Begin` failure reaches `exitpt` with no live transaction;
* poll failure reaches `exitpt` after pollEvents internally ran
  `handleConnectionError` on the query error;
* an empty poll rolls back, sleeps 5 seconds and reaches `exitpt` with a nil
  error;
* a fetch failure inside the row loop sets only the shadowed inner `loopErr`,
  so it reaches `exitpt` with the OUTER `loopErr` still nil: no rollback, no
  error delay, no reconnect attempt, no counter change;
* otherwise every row is dispatched, the transaction commits and the counter
  resets to zero. -/
def runPass (env : PassEnv) (reg : List (String × Handler)) (counter : Nat) : PassOut :=
  match env.beginErr with
  | some e => exitpt (some e) false env.reconnectOk counter [DbOp.beginTx]
  | none =>
    match env.pollErr with
    | some e =>
      exitpt (some e) true env.reconnectOk counter
        ([DbOp.beginTx, DbOp.pollQ] ++ (handleConnectionError e env.reconnectOk).2)
    | none =>
      let specs := pollSpecs env
      if specs.isEmpty then
        exitpt none true env.reconnectOk counter
          [DbOp.beginTx, DbOp.pollQ, DbOp.rollbackTx, DbOp.sleep5]
      else
        let rr := processRows env reg specs
        if rr.2 then
          exitpt none true env.reconnectOk counter ([DbOp.beginTx, DbOp.pollQ] ++ rr.1)
        else
          ⟨[DbOp.beginTx, DbOp.pollQ] ++ rr.1 ++ [DbOp.commitTx], 0, none⟩

/-- Outcome of running the ProcessEvents loop against a finite prefix of pass
environments. `finished = true` means the Go function returned (via the
consecutive-error budget, or via `break` in single-pass mode); `finished =
false` means the supplied environments were exhausted with the loop still
running. `exitErr` is the value of `op.LoopExitError` at that point. -/
structure EngineResult where
  finished : Bool
  exitErr : Option PubErr
  counter : Nat
  trace : List DbOp
deriving DecidableEq, Repr

/-- The `for` loop of ProcessEvents: run passes one after the other, stopping
when a pass executes `return` (budget exhausted) or, in single-pass mode, after
the first pass that does not return. -/
def processLoop (reg : List (String × Handler)) (loop : Bool) :
    List PassEnv → Nat → EngineResult
  | [], counter => ⟨false, none, counter, []⟩
  | env :: rest, counter =>
    let p := runPass env reg counter
    match p.exit with
    | some e => ⟨true, some (PubErr.db e), p.counter, p.trace⟩
    | none =>
      if loop then
        let r := processLoop reg loop rest p.counter
        ⟨r.finished, r.exitErr, r.counter, p.trace ++ r.trace⟩
      else
        ⟨true, none, p.counter, p.trace⟩

/-- ProcessEvents from orapub.go. First statement: `op.LoopExitError = nil`.
Then the two setup checks (`len(eventProcessors) == 0`, then `op.db == nil`),
each of which records its sentinel error and returns without touching the
database; otherwise the loop runs with the consecutive-error counter starting
at zero. Returns the final `OraPub` state and the engine outcome. -/
def ProcessEvents (op : OraPubState) (reg : List (String × Handler))
    (envs : List PassEnv) (loop : Bool) : OraPubState × EngineResult :=
  let op1 : OraPubState := { op with LoopExitError := none }
  if reg.length = 0 then
    ({ op1 with LoopExitError := some PubErr.noProcessorsRegistered },
      ⟨true, some PubErr.noProcessorsRegistered, 0, []⟩)
  else
    match op1.db with
    | none =>
      ({ op1 with LoopExitError := some PubErr.notConnected },
        ⟨true, some PubErr.notConnected, 0, []⟩)
    | some _ =>
      let r := processLoop reg loop envs 0
      ({ op1 with LoopExitError := r.exitErr }, r)

/-- The value the OUTER `loopErr` of a pass has when control reaches the
`exitpt:` label: the `Begin` error, else the poll error, else nil (a fetch
failure only ever sets the shadowed inner variable). -/
def passErr (env : PassEnv) : Option DbError :=
  match env.beginErr with
  | some e => some e
  | none => env.pollErr

/-- A pass whose outer error is non-nil and is not recovered by a successful
connection-class reconnect. -/
def unrecoveredErrorPass (env : PassEnv) : Bool :=
  match passErr env with
  | some e => !(e.isConn && env.reconnectOk)
  | none => false

/-- Reports whether the event-detail fetch for a spec succeeds in `env`. -/
def fetchOk (env : PassEnv) (es : EventSpec) : Bool :=
  match env.fetchResult es with
  | Except.ok _ => true
  | Except.error _ => false

/-! Concrete inputs used by the closed evaluations and the witnesses. -/

/-- A handler whose Processor callback always succeeds. -/
def hOk : Handler := fun _ => none

/-- A handler whose Processor callback always fails. -/
def hBad : Handler := fun _ => some "fail"

/-- A concrete non-connection-class database error. -/
def dbe0 : DbError := ⟨false, 7⟩

/-- A concrete connection-class database error. -/
def dbeConn : DbError := ⟨true, 9⟩

/-- A pass in which Begin and poll succeed, the poll returns the single row
(A, 1), and the event-detail fetch for it fails (event not found). -/
def c1Env : PassEnv := ⟨none, none, [⟨"A", 1⟩], fun _ => Except.error ⟨false, 404⟩, true⟩

/-- A registry with one always-succeeding handler. -/
def c1Reg : List (String × Handler) := [("h", hOk)]

/-- A pass in which the poll query itself fails with the same non-connection
error, for contrast with `c1Env`. -/
def c1PollEnv : PassEnv := ⟨none, some ⟨false, 404⟩, [], fun _ => Except.error ⟨false, 404⟩, true⟩

/-- An event-detail store holding an event for every spec. -/
def c2Fetch (es : EventSpec) : Except DbError GEvent :=
  Except.ok ⟨es.aggregateId, es.version, "T", []⟩

/-- A pass with one polled row whose fetch succeeds. -/
def c2Env : PassEnv := ⟨none, none, [⟨"A", 1⟩], c2Fetch, true⟩

/-- A registry with one failing and one succeeding handler. -/
def c2Reg : List (String × Handler) := [("bad", hBad), ("ok", hOk)]

/-- A pass that fails at Begin with a non-connection-class error. -/
def c3Env : PassEnv := ⟨some dbe0, none, [], fun _ => Except.error dbe0, false⟩

/-- A connected engine with no recorded exit error. -/
def c3Op : OraPubState := ⟨some (), none⟩

/-- A schedule of 100 consecutive unrecovered error passes. -/
def c3Pre : List PassEnv := List.replicate 100 c3Env

/-- An engine that holds no connection handle. -/
def c5Op : OraPubState := ⟨none, none⟩

/-- A pass that fails at Begin with a connection-class error and whose
reconnect attempt succeeds. -/
def c6Env : PassEnv := ⟨some dbeConn, none, [], fun _ => Except.error dbeConn, true⟩

/-- An EventProcessor with both callbacks present. -/
def pGood : EventProcessor := ⟨some (fun _ => none), some (fun _ _ => none)⟩

/-- An EventProcessor whose Initialize callback is nil. -/
def pBad : EventProcessor := ⟨none, some (fun _ _ => none)⟩

/-- An engine holding a connection and a terminal error from an earlier run. -/
def c10Op : OraPubState := ⟨some (), some (PubErr.db dbe0)⟩

/-- Filler queue rows for a distinct aggregate, versions 10..108. -/
def c4B (j : Nat) : EventSpec := ⟨"B", 10 + (j : Int)⟩

/-- The 99 filler rows. -/
def c4Bs : List EventSpec := (List.range 99).map c4B

/-- A queue table with 101 pending rows: versions 1 and 2 of aggregate A plus
the 99 filler rows of aggregate B. -/
def c4Table : List EventSpec := ⟨"A", 1⟩ :: ⟨"A", 2⟩ :: c4Bs

/-- A database-chosen scan order of `c4Table` in which (A, 1) comes last, so
ROWNUM excludes it from the first batch. -/
def c4Scan1 : List EventSpec := ⟨"A", 2⟩ :: (c4Bs ++ [⟨"A", 1⟩])

/-- The rows the first poll returns. -/
def c4Poll1 : List EventSpec := oraclePollQuery c4Scan1

/-- The queue after the first pass, in which every polled row was processed
successfully and deleted: the table rows not returned by the first poll. -/
def c4Rest : List EventSpec := c4Table.filter (fun es => !(c4Poll1.contains es))

/-- The rows the second poll returns. -/
def c4Poll2 : List EventSpec := oraclePollQuery c4Rest

/-- Aggregate A rows in the order fetched across the two passes. -/
def c4FetchedA : List EventSpec :=
  (c4Poll1 ++ c4Poll2).filter (fun es => es.aggregateId == "A")

/-- Looking a name up after a map assignment for that name finds the newly
assigned processor. -/
theorem lookupProcessor_insertProcessor (ps : List (String × EventProcessor))
    (name : String) (p : EventProcessor) :
    lookupProcessor (insertProcessor ps name p) name = some p := by
  induction ps with
  | nil => simp [insertProcessor, lookupProcessor]
  | cons hd tl ih =>
    obtain ⟨n, q⟩ := hd
    by_cases h : n = name
    · simp [insertProcessor, lookupProcessor, h]
    · simp [insertProcessor, lookupProcessor, h, ih]

/-- C7: a single poll never returns (and hence never locks) more than 100
queue rows, for any contents and scan order of the queue table. -/
theorem C7_poll_batch_bound (scan : List EventSpec) :
    (oraclePollQuery scan).length ≤ 100 := by
  rw [oraclePollQuery, List.length_insertionSort, List.length_take]
  omega

/-- C4 (amended): the rows returned by a single poll are sorted by version in
non-decreasing order across all aggregates, and hence any one aggregate's rows
appear within the pass in non-decreasing version order. (The original claim's
across-passes part fails; see the counterexample.) -/
theorem C4_within_pass_ordering (scan : List EventSpec) (agg : String) :
    List.Pairwise versionLe (oraclePollQuery scan) ∧
    List.Pairwise versionLe
      ((oraclePollQuery scan).filter (fun es => es.aggregateId == agg)) := by
  have hs : List.Sorted versionLe (oraclePollQuery scan) :=
    List.sorted_insertionSort versionLe (scan.take 100)
  exact ⟨hs, List.Pairwise.sublist (List.filter_sublist _) hs⟩

/-- C4 counterexample: with 101 pending rows, ROWNUM truncates the scan before
ORDER BY sorts, so the first poll can return (A, 2) while leaving (A, 1) in the
queue; after all polled rows are processed and deleted, the next pass fetches
(A, 1), and aggregate A's rows are fetched across passes in DECREASING version
order, refuting the across-passes part of the claim. -/
theorem C4_cross_pass_counterexample :
    c4Scan1.Perm c4Table ∧
    c4Poll1.length = 100 ∧
    c4Rest = [⟨"A", 1⟩] ∧
    c4FetchedA.map (fun es => es.version) = [2, 1] ∧
    ¬ List.Pairwise versionLe c4FetchedA := by
  refine ⟨?_, by decide, by decide, by decide, by decide⟩
  show (⟨"A", 2⟩ :: (c4Bs ++ [⟨"A", 1⟩])).Perm (⟨"A", 1⟩ :: ⟨"A", 2⟩ :: c4Bs)
  exact ((List.perm_append_singleton _ _).cons _).trans
    (List.Perm.swap ⟨"A", 1⟩ ⟨"A", 2⟩ c4Bs)

/-- C8: RegisterEventProcessor returns the nil-field error exactly when the
Initialize or the Processor callback is nil, leaves the registry unchanged in
that case, and otherwise succeeds and makes the new registration the one found
under that name (last registration per name wins). -/
theorem C8_register_semantics (ps : List (String × EventProcessor)) (name : String)
    (p : EventProcessor) :
    ((RegisterEventProcessor ps name p).1 = some PubErr.nilEventProcessorField ↔
      (p.InitFn.isNone = true ∨ p.Processor.isNone = true)) ∧
    ((p.InitFn.isNone = true ∨ p.Processor.isNone = true) →
      (RegisterEventProcessor ps name p).2 = ps) ∧
    (p.InitFn.isSome = true → p.Processor.isSome = true →
      (RegisterEventProcessor ps name p).1 = none ∧
        lookupProcessor (RegisterEventProcessor ps name p).2 name = some p) := by
  obtain ⟨i, pr⟩ := p
  cases i <;> cases pr <;>
    simp [RegisterEventProcessor, lookupProcessor_insertProcessor]

/-- Witness for C8 at concrete inputs: a fully specified registration is
stored and found under its name, and a nil-field registration leaves the
registry unchanged. -/
theorem C8_register_semantics_witness :
    ((RegisterEventProcessor [] "a" pGood).1 = none ∧
      lookupProcessor (RegisterEventProcessor [] "a" pGood).2 "a" = some pGood) ∧
    (RegisterEventProcessor [] "a" pBad).2 = [] :=
  ⟨(C8_register_semantics [] "a" pGood).2.2 rfl rfl,
    (C8_register_semantics [] "a" pBad).2.1 (Or.inl rfl)⟩

/-- C9: IsHealth is true exactly when the terminal-error slot is empty and the
connection liveness ping succeeds; with no connection handle it is false. -/
theorem C9_is_health_iff (op : OraPubState) (pingOk : Bool) :
    (IsHealth op pingOk = true ↔
      (op.LoopExitError = none ∧ op.db.isSome = true ∧ pingOk = true)) ∧
    (op.db = none → IsHealth op pingOk = false) := by
  obtain ⟨db, le⟩ := op
  cases db <;> cases le <;> cases pingOk <;>
    simp [IsHealth, isDbHealth, extractDB]

/-- Witness for C9: an engine with no handle and an empty error slot is
reported unhealthy even when a ping would succeed. -/
theorem C9_is_health_iff_witness : IsHealth ⟨none, none⟩ true = false :=
  (C9_is_health_iff ⟨none, none⟩ true).2 rfl

/-- C10: ProcessEvents clears the LoopExitError slot on entry, before the
setup checks: the outcome never depends on a previously recorded terminal
error, and a prior terminal error is replaced even when the new invocation
itself fails the no-processors precondition. -/
theorem C10_exit_error_cleared_on_entry (op : OraPubState)
    (reg : List (String × Handler)) (envs : List PassEnv) (loop : Bool) :
    (∀ e1 e2 : Option PubErr,
      ProcessEvents { op with LoopExitError := e1 } reg envs loop =
        ProcessEvents { op with LoopExitError := e2 } reg envs loop) ∧
    (∀ e : PubErr, op.LoopExitError = some e → reg = [] →
      (ProcessEvents op reg envs loop).1.LoopExitError =
        some PubErr.noProcessorsRegistered) := by
  refine ⟨fun e1 e2 => rfl, fun e h1 h2 => ?_⟩
  subst h2
  rfl

/-- Witness for C10: after a fatal error was recorded, merely invoking
ProcessEvents again with an empty registry replaces the recorded error. -/
theorem C10_exit_error_cleared_on_entry_witness :
    (ProcessEvents c10Op [] [] true).1.LoopExitError =
      some PubErr.noProcessorsRegistered :=
  (C10_exit_error_cleared_on_entry c10Op [] [] true).2 (PubErr.db dbe0) rfl rfl

/-- C5: with an empty registry ProcessEvents records NoProcessorsRegistered
and returns at once, issuing no database operation; with handlers but no
connection handle it records NotConnected and returns at once, issuing no
database operation. Both results are independent of the pass environments, so
neither setup error is retried. -/
theorem C5_setup_preconditions (op : OraPubState) (reg : List (String × Handler))
    (envs : List PassEnv) (loop : Bool) :
    (reg = [] →
      ProcessEvents op reg envs loop =
        (⟨op.db, some PubErr.noProcessorsRegistered⟩,
          ⟨true, some PubErr.noProcessorsRegistered, 0, []⟩)) ∧
    (reg ≠ [] → op.db = none →
      ProcessEvents op reg envs loop =
        (⟨none, some PubErr.notConnected⟩,
          ⟨true, some PubErr.notConnected, 0, []⟩)) := by
  constructor
  · intro h
    subst h
    rfl
  · intro h1 h2
    obtain ⟨db, le⟩ := op
    dsimp only at h2
    subst h2
    cases reg with
    | nil => exact absurd rfl h1
    | cons hd tl => rfl

/-- Witness for C5 at concrete inputs: both setup failures, with the empty
trace showing no connection-requiring operation was attempted. -/
theorem C5_setup_preconditions_witness :
    ProcessEvents c5Op [] [] false =
      (⟨none, some PubErr.noProcessorsRegistered⟩,
        ⟨true, some PubErr.noProcessorsRegistered, 0, []⟩) ∧
    ProcessEvents c5Op [("h", hOk)] [] false =
      (⟨none, some PubErr.notConnected⟩,
        ⟨true, some PubErr.notConnected, 0, []⟩) :=
  ⟨(C5_setup_preconditions c5Op [] [] false).1 rfl,
    (C5_setup_preconditions c5Op [("h", hOk)] [] false).2 (List.cons_ne_nil _ _) rfl⟩

/-- C1 (code bug): when the per-row event-detail fetch fails, the Go source's
inner short variable declaration shadows the outer loopErr, so the pass reaches
the exit label with a nil error: the transaction is NOT rolled back, there is
no 1-second delay, no reconnect classification, and the consecutive-error
counter is NOT incremented — unlike a poll failure with the very same error,
which is rolled back, delayed and counted (final conjunct). -/
theorem C1_fetch_error_skips_error_handling :
    runPass c1Env c1Reg 0 =
      ⟨[DbOp.beginTx, DbOp.pollQ, DbOp.fetchQ ⟨"A", 1⟩], 0, none⟩ ∧
    DbOp.rollbackTx ∉ (runPass c1Env c1Reg 0).trace ∧
    DbOp.sleep1 ∉ (runPass c1Env c1Reg 0).trace ∧
    (runPass c1Env c1Reg 0).counter = 0 ∧
    (runPass c1Env c1Reg 0).exit = none ∧
    runPass c1PollEnv c1Reg 0 =
      ⟨[DbOp.beginTx, DbOp.pollQ, DbOp.sleep1, DbOp.rollbackTx], 1, none⟩ := by
  decide

/-- Unfolding lemma: one step of the loop. -/
theorem processLoop_cons (reg : List (String × Handler)) (loop : Bool) (env : PassEnv)
    (rest : List PassEnv) (c : Nat) :
    processLoop reg loop (env :: rest) c =
      match (runPass env reg c).exit with
      | some e =>
        ⟨true, some (PubErr.db e), (runPass env reg c).counter, (runPass env reg c).trace⟩
      | none =>
        if loop then
          ⟨(processLoop reg loop rest (runPass env reg c).counter).finished,
            (processLoop reg loop rest (runPass env reg c).counter).exitErr,
            (processLoop reg loop rest (runPass env reg c).counter).counter,
            (runPass env reg c).trace ++
              (processLoop reg loop rest (runPass env reg c).counter).trace⟩
        else ⟨true, none, (runPass env reg c).counter, (runPass env reg c).trace⟩ :=
  rfl

/-- A pass that hits the consecutive-error budget terminates the loop with the
triggering error recorded. -/
theorem processLoop_cons_exit (reg : List (String × Handler)) (loop : Bool)
    (env : PassEnv) (rest : List PassEnv) (c : Nat) (e : DbError)
    (h : (runPass env reg c).exit = some e) :
    processLoop reg loop (env :: rest) c =
      ⟨true, some (PubErr.db e), (runPass env reg c).counter, (runPass env reg c).trace⟩ := by
  rw [processLoop_cons, h]

/-- In loop mode, a pass that does not exit continues with the next pass. -/
theorem processLoop_cons_next (reg : List (String × Handler)) (env : PassEnv)
    (rest : List PassEnv) (c : Nat) (h : (runPass env reg c).exit = none) :
    processLoop reg true (env :: rest) c =
      ⟨(processLoop reg true rest (runPass env reg c).counter).finished,
        (processLoop reg true rest (runPass env reg c).counter).exitErr,
        (processLoop reg true rest (runPass env reg c).counter).counter,
        (runPass env reg c).trace ++
          (processLoop reg true rest (runPass env reg c).counter).trace⟩ := by
  rw [processLoop_cons, h]
  rfl

/-- In single-pass mode, a pass that does not exit ends the function with a
nil terminal error. -/
theorem processLoop_cons_single (reg : List (String × Handler)) (env : PassEnv)
    (rest : List PassEnv) (c : Nat) (h : (runPass env reg c).exit = none) :
    processLoop reg false (env :: rest) c =
      ⟨true, none, (runPass env reg c).counter, (runPass env reg c).trace⟩ := by
  rw [processLoop_cons, h]
  rfl

/-- With a non-nil outer pass error, a pass behaves as the exit block: the
counter becomes zero after a successful connection-class reconnect and is
incremented otherwise, and the pass returns exactly when the incremented
counter exceeds the threshold. -/
theorem exitpt_some (e : DbError) (txnLive : Bool) (rOk : Bool) (c : Nat)
    (tr : List DbOp) :
    (exitpt (some e) txnLive rOk c tr).counter =
      (if e.isConn && rOk then 0 else c + 1) ∧
    (exitpt (some e) txnLive rOk c tr).exit =
      (if (if e.isConn && rOk then 0 else c + 1) > consecutiveErrorsThreshold then
        some e else none) := by
  cases hc : e.isConn <;> cases rOk <;>
    simp [exitpt, handleConnectionError, hc] <;>
    exact ⟨by split <;> rfl, by split <;> simp_all⟩

/-- With a non-nil outer pass error, a pass behaves as the exit block: the
counter becomes zero after a successful connection-class reconnect and is
incremented otherwise, and the pass returns exactly when the incremented
counter exceeds the threshold. -/
theorem runPass_passErr (env : PassEnv) (reg : List (String × Handler)) (c : Nat)
    (e : DbError) (h : passErr env = some e) :
    (runPass env reg c).counter =
      (if e.isConn && env.reconnectOk then 0 else c + 1) ∧
    (runPass env reg c).exit =
      (if (if e.isConn && env.reconnectOk then 0 else c + 1) >
          consecutiveErrorsThreshold then some e else none) := by
  unfold passErr at h
  cases hb : env.beginErr with
  | some e0 =>
    rw [hb] at h
    have h2 : some e0 = some e := h
    injection h2 with h2
    subst h2
    have hrun : runPass env reg c = exitpt (some e0) false env.reconnectOk c [DbOp.beginTx] := by
      unfold runPass
      rw [hb]
    rw [hrun]
    exact exitpt_some e0 false env.reconnectOk c [DbOp.beginTx]
  | none =>
    rw [hb] at h
    have hpoll : env.pollErr = some e := h
    have hrun : runPass env reg c =
        exitpt (some e) true env.reconnectOk c
          ([DbOp.beginTx, DbOp.pollQ] ++ (handleConnectionError e env.reconnectOk).2) := by
      unfold runPass
      rw [hb, hpoll]
    rw [hrun]
    exact exitpt_some e true env.reconnectOk c _

/-- An unrecovered error pass increments the counter by one and returns
exactly when the incremented counter exceeds the threshold. -/
theorem runPass_unrecovered (env : PassEnv) (reg : List (String × Handler)) (c : Nat)
    (h : unrecoveredErrorPass env = true) :
    (runPass env reg c).counter = c + 1 ∧
    (runPass env reg c).exit =
      (if c + 1 > consecutiveErrorsThreshold then passErr env else none) := by
  unfold unrecoveredErrorPass at h
  cases hpe : passErr env with
  | none => rw [hpe] at h; cases h
  | some e =>
    rw [hpe] at h
    have h2 : (e.isConn && env.reconnectOk).not = true := h
    obtain ⟨hc2, he2⟩ := runPass_passErr env reg c e hpe
    have hand : (e.isConn && env.reconnectOk) = false := by
      cases hcc : e.isConn && env.reconnectOk
      · rfl
      · rw [hcc] at h2; cases h2
    rw [hand] at hc2 he2
    simp only [Bool.false_eq_true, if_false] at hc2 he2
    exact ⟨hc2, he2⟩

/-- Composition of the loop over an appended schedule, as long as the first
part does not terminate the function. -/
theorem processLoop_append (reg : List (String × Handler)) (xs ys : List PassEnv)
    (c : Nat) (h : (processLoop reg true xs c).finished = false) :
    processLoop reg true (xs ++ ys) c =
      ⟨(processLoop reg true ys ((processLoop reg true xs c).counter)).finished,
        (processLoop reg true ys ((processLoop reg true xs c).counter)).exitErr,
        (processLoop reg true ys ((processLoop reg true xs c).counter)).counter,
        (processLoop reg true xs c).trace ++
          (processLoop reg true ys ((processLoop reg true xs c).counter)).trace⟩ := by
  induction xs generalizing c with
  | nil =>
    show processLoop reg true ys c = _
    rfl
  | cons env rest ih =>
    cases hx : (runPass env reg c).exit with
    | some e =>
      rw [processLoop_cons_exit reg true env rest c e hx] at h
      cases h
    | none =>
      have hcons := processLoop_cons_next reg env rest c hx
      rw [hcons] at h
      dsimp only at h
      show processLoop reg true (env :: (rest ++ ys)) c = _
      rw [processLoop_cons_next reg env (rest ++ ys) c hx, ih _ h, hcons]
      dsimp only
      rw [List.append_assoc]

/-- With every pass an unrecovered error pass and the budget not yet reached,
the loop is still running with the counter grown by one per pass. -/
theorem processLoop_errors_still_running (reg : List (String × Handler))
    (envs : List PassEnv) (c : Nat)
    (h : ∀ env ∈ envs, unrecoveredErrorPass env = true)
    (hc : c + envs.length ≤ consecutiveErrorsThreshold) :
    (processLoop reg true envs c).finished = false ∧
    (processLoop reg true envs c).counter = c + envs.length := by
  induction envs generalizing c with
  | nil => exact ⟨rfl, rfl⟩
  | cons env rest ih =>
    have henv := h env (List.mem_cons_self env rest)
    obtain ⟨hcnt, hex⟩ := runPass_unrecovered env reg c henv
    have hlen : (env :: rest).length = rest.length + 1 := rfl
    have hlt : ¬ (c + 1 > consecutiveErrorsThreshold) := by
      rw [hlen] at hc
      omega
    rw [if_neg hlt] at hex
    rw [processLoop_cons_next reg env rest c hex, hcnt]
    dsimp only
    obtain ⟨f2, c2⟩ := ih (fun e2 he2 => h e2 (List.mem_cons_of_mem env he2))
      (c := c + 1) (by rw [hlen] at hc; omega)
    refine ⟨f2, ?_⟩
    rw [c2, hlen]
    omega

/-- In loop mode, if the loop terminated on its own then it recorded a (pass)
error in the terminal-error slot: budget exhaustion is the only exit. -/
theorem processLoop_finished_exitErr_isSome (reg : List (String × Handler))
    (envs : List PassEnv) (c : Nat)
    (h : (processLoop reg true envs c).finished = true) :
    ∃ e, (processLoop reg true envs c).exitErr = some (PubErr.db e) := by
  induction envs generalizing c with
  | nil => cases h
  | cons env rest ih =>
    cases hx : (runPass env reg c).exit with
    | some e =>
      rw [processLoop_cons_exit reg true env rest c e hx]
      exact ⟨e, rfl⟩
    | none =>
      have hn := processLoop_cons_next reg env rest c hx
      rw [hn] at h ⊢
      dsimp only at h ⊢
      exact ih _ h

/-- With handlers registered and a connection held, ProcessEvents runs the
loop from a zero counter and stores the loop's terminal error. -/
theorem ProcessEvents_run (op : OraPubState) (reg : List (String × Handler))
    (envs : List PassEnv) (loop : Bool) (hdb : op.db.isSome = true) (hreg : reg ≠ []) :
    ProcessEvents op reg envs loop =
      (⟨op.db, (processLoop reg loop envs 0).exitErr⟩, processLoop reg loop envs 0) := by
  obtain ⟨db, le⟩ := op
  cases db with
  | none => simp at hdb
  | some d =>
    cases reg with
    | nil => exact absurd rfl hreg
    | cons hd tl => rfl

/-- C6: a pass whose outer error is connection-class and whose reconnect
attempt succeeds resets the consecutive-error counter to zero, does not exit,
and in loop mode the loop simply continues with the next pass (counter zero)
instead of terminating. -/
theorem C6_reconnect_resets_counter (env : PassEnv) (reg : List (String × Handler))
    (c : Nat) (e : DbError) (rest : List PassEnv)
    (h1 : passErr env = some e) (h2 : e.isConn = true) (h3 : env.reconnectOk = true) :
    (runPass env reg c).counter = 0 ∧
    (runPass env reg c).exit = none ∧
    processLoop reg true (env :: rest) c =
      ⟨(processLoop reg true rest 0).finished,
        (processLoop reg true rest 0).exitErr,
        (processLoop reg true rest 0).counter,
        (runPass env reg c).trace ++ (processLoop reg true rest 0).trace⟩ := by
  obtain ⟨hc, he⟩ := runPass_passErr env reg c e h1
  rw [h2, h3] at hc he
  simp only [Bool.true_and, if_true, if_pos rfl] at hc he
  have he2 : (runPass env reg c).exit = none := by
    rw [he]
    rfl
  refine ⟨hc, he2, ?_⟩
  rw [processLoop_cons_next reg env rest c he2, hc]

/-- Witness for C6: a concrete connection-class Begin failure with a
successful reconnect, entered at counter 55, leaves the loop running from a
zero counter. -/
theorem C6_reconnect_resets_counter_witness :
    (runPass c6Env c1Reg 55).counter = 0 ∧
    (runPass c6Env c1Reg 55).exit = none ∧
    processLoop c1Reg true [c6Env] 55 =
      ⟨(processLoop c1Reg true [] 0).finished,
        (processLoop c1Reg true [] 0).exitErr,
        (processLoop c1Reg true [] 0).counter,
        (runPass c6Env c1Reg 55).trace ++ (processLoop c1Reg true [] 0).trace⟩ :=
  C6_reconnect_resets_counter c6Env c1Reg 55 dbeConn [] rfl rfl rfl

/-- C3: in loop mode, after exactly 101 consecutive unrecovered error passes
starting from a zero counter, ProcessEvents terminates with LoopExitError set
to the error of the final (triggering) pass; after 100 or fewer such passes
the loop is still running; and the only way the loop ever terminates on its
own in loop mode is with such a recorded pass error (budget exhaustion). -/
theorem C3_fatal_threshold (reg : List (String × Handler)) (op : OraPubState)
    (pre : List PassEnv) (envL : PassEnv) (e : DbError)
    (hpre : ∀ env ∈ pre, unrecoveredErrorPass env = true)
    (hlen : pre.length = 100)
    (hL : unrecoveredErrorPass envL = true)
    (he : passErr envL = some e)
    (hdb : op.db.isSome = true) (hreg : reg ≠ []) :
    ((ProcessEvents op reg (pre ++ [envL]) true).2.finished = true ∧
      (ProcessEvents op reg (pre ++ [envL]) true).1.LoopExitError =
        some (PubErr.db e)) ∧
    (∀ envs : List PassEnv, (∀ env ∈ envs, unrecoveredErrorPass env = true) →
      envs.length ≤ 100 →
      (processLoop reg true envs 0).finished = false) ∧
    (∀ (envs : List PassEnv) (c : Nat),
      (processLoop reg true envs c).finished = true →
      ∃ e2, (processLoop reg true envs c).exitErr = some (PubErr.db e2)) := by
  have hbound : (0 : Nat) + pre.length ≤ consecutiveErrorsThreshold := by
    rw [hlen]
    decide
  have hrun := processLoop_errors_still_running reg pre 0 hpre hbound
  have hc100 : (processLoop reg true pre 0).counter = 100 := by
    rw [hrun.2, hlen]
  obtain ⟨hcnt, hex⟩ := runPass_unrecovered envL reg 100 hL
  have hgt : 100 + 1 > consecutiveErrorsThreshold := by decide
  rw [if_pos hgt, he] at hex
  have hsingle := processLoop_cons_exit reg true envL [] 100 e hex
  have happ := processLoop_append reg pre [envL] 0 hrun.1
  rw [hc100, hsingle] at happ
  dsimp only at happ
  refine ⟨?_, ?_, ?_⟩
  · rw [ProcessEvents_run op reg (pre ++ [envL]) true hdb hreg]
    dsimp only
    rw [happ]
    exact ⟨rfl, rfl⟩
  · intro envs h hle
    have hb2 : (0 : Nat) + envs.length ≤ consecutiveErrorsThreshold := by
      unfold consecutiveErrorsThreshold
      omega
    exact (processLoop_errors_still_running reg envs 0 h hb2).1
  · intro envs c h
    exact processLoop_finished_exitErr_isSome reg envs c h

/-- Witness for C3 at a concrete schedule: 100 identical unrecovered Begin
failures followed by a 101st, run on a connected engine with one handler. -/
theorem C3_fatal_threshold_witness :
    ((ProcessEvents c3Op c1Reg (c3Pre ++ [c3Env]) true).2.finished = true ∧
      (ProcessEvents c3Op c1Reg (c3Pre ++ [c3Env]) true).1.LoopExitError =
        some (PubErr.db dbe0)) ∧
    (∀ envs : List PassEnv, (∀ env ∈ envs, unrecoveredErrorPass env = true) →
      envs.length ≤ 100 →
      (processLoop c1Reg true envs 0).finished = false) ∧
    (∀ (envs : List PassEnv) (c : Nat),
      (processLoop c1Reg true envs c).finished = true →
      ∃ e2, (processLoop c1Reg true envs c).exitErr = some (PubErr.db e2)) :=
  C3_fatal_threshold c1Reg c3Op c3Pre c3Env dbe0 (by decide) (by decide) (by decide)
    (by decide) rfl (List.cons_ne_nil _ _)

/-- The fetch for a spec succeeds exactly when the store holds an event for
it. -/
theorem fetchOk_iff (env : PassEnv) (s : EventSpec) :
    fetchOk env s = true ↔ ∃ ev, env.fetchResult s = Except.ok ev := by
  unfold fetchOk
  cases h : env.fetchResult s <;> simp

/-- Membership of a delete statement in a single row's execution, when the
fetch for that row succeeds: the delete for exactly that row is issued iff
some registered handler succeeds on the fetched event. -/
theorem mem_processRow_delete (env : PassEnv) (reg : List (String × Handler))
    (s r : EventSpec) (ev : GEvent) (hse : env.fetchResult s = Except.ok ev) :
    (DbOp.deleteQ r ∈ (processRow env reg s).1 ↔
      (s = r ∧ ∃ nh ∈ reg, (nh.2 ev).isNone = true)) ∧
    (processRow env reg s).2 = none := by
  unfold processRow
  rw [hse]
  refine ⟨?_, rfl⟩
  simp only [List.mem_cons, List.mem_filterMap]
  constructor
  · rintro (hfetch | ⟨nh, hnh, hf⟩)
    · cases hfetch
    · by_cases hcond : (nh.2 ev).isNone = true
      · rw [if_pos hcond] at hf
        injection hf with hf
        injection hf with hf
        exact ⟨hf, nh, hnh, hcond⟩
      · rw [if_neg hcond] at hf
        cases hf
  · rintro ⟨rfl, nh, hnh, hcond⟩
    exact Or.inr ⟨nh, hnh, by rw [if_pos hcond]⟩

/-- With every fetch of a spec list succeeding, the row loop does not abort,
and it issues a delete for `r` exactly when some listed spec equals `r` and
some registered handler succeeds on its fetched event. -/
theorem processRows_all_ok (env : PassEnv) (reg : List (String × Handler))
    (specs : List EventSpec) (hf : ∀ s ∈ specs, fetchOk env s = true) (r : EventSpec) :
    (processRows env reg specs).2 = false ∧
    (DbOp.deleteQ r ∈ (processRows env reg specs).1 ↔
      ∃ s ∈ specs, s = r ∧ ∃ ev, env.fetchResult s = Except.ok ev ∧
        ∃ nh ∈ reg, (nh.2 ev).isNone = true) := by
  induction specs with
  | nil => simp [processRows]
  | cons s rest ih =>
    obtain ⟨ev, hev⟩ :=
      (fetchOk_iff env s).mp (hf s (List.mem_cons_self s rest))
    obtain ⟨hrow, hnone⟩ := mem_processRow_delete env reg s r ev hev
    obtain ⟨habort, hmem⟩ :=
      ih (fun s2 hs2 => hf s2 (List.mem_cons_of_mem s hs2))
    have hstep : processRows env reg (s :: rest) =
        ((processRow env reg s).1 ++ (processRows env reg rest).1,
          (processRows env reg rest).2) := by
      rcases hpr : processRow env reg s with ⟨tr, res⟩
      have hres : res = none := by
        have h2 := hnone
        rw [hpr] at h2
        exact h2
      subst hres
      conv_lhs => rw [processRows, hpr]
    rw [hstep]
    dsimp only
    refine ⟨habort, ?_⟩
    rw [List.mem_append, hrow, hmem]
    constructor
    · rintro (⟨rfl, hsucc⟩ | ⟨s2, hs2, hrest2⟩)
      · exact ⟨s, List.mem_cons_self s rest, rfl, ev, hev, hsucc⟩
      · exact ⟨s2, List.mem_cons_of_mem s hs2, hrest2⟩
    · rintro ⟨s2, hs2, hs2r, ev2, hev2, nh, hnh, hsucc⟩
      rcases List.mem_cons.mp hs2 with rfl | hs2m
      · rw [hev] at hev2
        injection hev2 with hev2
        subst hev2
        exact Or.inl ⟨hs2r, nh, hnh, hsucc⟩
      · exact Or.inr ⟨s2, hs2m, hs2r, ev2, hev2, nh, hnh, hsucc⟩

/-- C2: in a pass whose Begin and poll succeed and whose event-detail fetches
all succeed, the delete statement for a polled queue row is issued inside the
pass's transaction (which commits) exactly when at least one registered
handler returns success for that row's event; when every registered handler
fails on the row, no delete is issued for it, so the row survives for a later
pass. -/
theorem C2_delete_on_first_success (env : PassEnv) (reg : List (String × Handler))
    (c : Nat) (r : EventSpec)
    (hb : env.beginErr = none) (hp : env.pollErr = none)
    (hf : ∀ s ∈ pollSpecs env, fetchOk env s = true)
    (hr : r ∈ pollSpecs env) :
    (DbOp.deleteQ r ∈ (runPass env reg c).trace ↔
      ∃ ev, env.fetchResult r = Except.ok ev ∧
        ∃ nh ∈ reg, (nh.2 ev).isNone = true) ∧
    DbOp.commitTx ∈ (runPass env reg c).trace := by
  obtain ⟨hab, hmem⟩ := processRows_all_ok env reg (pollSpecs env) hf r
  have hne : (pollSpecs env).isEmpty = false := by
    cases hps : pollSpecs env
    · rw [hps] at hr
      cases hr
    · rfl
  have hrun : runPass env reg c =
      ⟨[DbOp.beginTx, DbOp.pollQ] ++ (processRows env reg (pollSpecs env)).1 ++
        [DbOp.commitTx], 0, none⟩ := by
    simp only [runPass, hb, hp, hne, hab, Bool.false_eq_true, if_false]
  have htr : DbOp.deleteQ r ∈ (runPass env reg c).trace ↔
      DbOp.deleteQ r ∈ (processRows env reg (pollSpecs env)).1 := by
    rw [hrun]
    simp
  have hcm : DbOp.commitTx ∈ (runPass env reg c).trace := by
    rw [hrun]
    simp
  refine ⟨?_, hcm⟩
  rw [htr, hmem]
  constructor
  · rintro ⟨s2, hs2, rfl, hrest⟩
    exact hrest
  · rintro ⟨ev, hev, nh, hnh, hsucc⟩
    exact ⟨r, hr, rfl, ev, hev, nh, hnh, hsucc⟩

/-- Witness for C2 at concrete inputs: one polled row, one failing and one
succeeding handler. -/
theorem C2_delete_on_first_success_witness :
    (DbOp.deleteQ ⟨"A", 1⟩ ∈ (runPass c2Env c2Reg 0).trace ↔
      ∃ ev, c2Env.fetchResult ⟨"A", 1⟩ = Except.ok ev ∧
        ∃ nh ∈ c2Reg, (nh.2 ev).isNone = true) ∧
    DbOp.commitTx ∈ (runPass c2Env c2Reg 0).trace :=
  C2_delete_on_first_success c2Env c2Reg 0 ⟨"A", 1⟩ rfl rfl (by decide) (by decide)

end Orapub
